import Mathlib

/-!
A shallow embedding of `carton/cart.py` (a django-carton fork): the `CartItem`
and `Cart` classes, their mutation operations, session persistence, and the
serialization round trip.  Python dicts are modeled as insertion-ordered
association lists, Django model instances as (model path, primary key) pairs,
and `decimal.Decimal` values as exact rationals (Decimal arithmetic on the
operations used here, multiplication by an integer and addition, is exact, and
`Decimal(str(d)) == d`, so the string form stored by `CartItem.to_dict` is
modeled by the decimal's value itself).
-/

namespace Carton

/-- A Django model instance as the cart sees it: the dotted path of its class
(which is what `Cart.get_product_model_path` computes from `__module__` and the
type name, and what `Cart.get_product_model` resolves back to the class) and
its integer primary key.  Equality is Django model equality: same concrete
class and same primary key. -/
@[ext]
structure Product where
  model : String
  pk : Nat
  deriving DecidableEq

/-- A key of an inner `_items_dict` bucket.  The mutators `add`, `remove`,
`remove_single` and `set_quantity` index buckets with the raw integer
`product.pk` (cart.py lines 113, 117, 128, 138, 140, 142, 163, 165, 166),
while `Cart.__init__` stores rebuilt items under the string `str(product.pk)`
(line 59).  A Python `str` key never equals an `int` key, so the two kinds are
kept apart.  A string key is represented by the integer it prints: decimal
printing of distinct naturals yields distinct strings and these keys are only
ever built by `str(product.pk)` and compared for equality. -/
inductive PKey where
  | int : Nat → PKey
  | str : Nat → PKey
  deriving DecidableEq

/-- `CartItem`: the associated product, its quantity and its price.
`CartItem.__init__` coerces the quantity with `int(...)` and the price with
`Decimal(str(...))`; on the modeled types (integers and exact decimals) both
coercions are the identity. -/
structure CartItem where
  product : Product
  quantity : Int
  price : Rat
  deriving DecidableEq

/-- `CartItem(product, quantity, price)` with the (identity) coercions of
`CartItem.__init__` applied. -/
def CartItem.make (product : Product) (quantity : Int) (price : Rat) : CartItem :=
  { product := product, quantity := quantity, price := price }

/-- `CartItem.subtotal`: `self.price * self.quantity`. -/
def CartItem.subtotal (i : CartItem) : Rat :=
  i.price * (i.quantity : Rat)

/-- The record produced by `CartItem.to_dict()`: product primary key, quantity,
and the price (stored by the source as `str(self.price)`; represented by the
exact value, see the file comment). -/
structure SerItem where
  product_pk : Nat
  quantity : Int
  price : Rat
  deriving DecidableEq

/-- `CartItem.to_dict()`. -/
def CartItem.to_dict (i : CartItem) : SerItem :=
  { product_pk := i.product.pk, quantity := i.quantity, price := i.price }

/-- A Python dict as an insertion-ordered association list. -/
abbrev PyDict (α β : Type) := List (α × β)

/-- `d[k]` as an option (Python raises `KeyError` on `none`; each call site
models the raise explicitly). -/
def PyDict.get {α β : Type} [DecidableEq α] : PyDict α β → α → Option β
  | [], _ => none
  | (k', v) :: rest, k => if k = k' then some v else PyDict.get rest k

/-- `d[k] = v`: replace the value of an existing key in place, else append. -/
def PyDict.set {α β : Type} [DecidableEq α] : PyDict α β → α → β → PyDict α β
  | [], k, v => [(k, v)]
  | (k', v') :: rest, k, v =>
      if k = k' then (k', v) :: rest else (k', v') :: PyDict.set rest k v

/-- `del d[k]` for a key known to be present (call sites model the `KeyError`
of a missing key explicitly): drop the first entry with that key. -/
def PyDict.del {α β : Type} [DecidableEq α] : PyDict α β → α → PyDict α β
  | [], _ => []
  | (k', v') :: rest, k =>
      if k = k' then rest else (k', v') :: PyDict.del rest k

/-- `d.keys()`. -/
def PyDict.keys {α β : Type} (d : PyDict α β) : List α :=
  d.map (fun kv => kv.1)

/-- `d.values()`. -/
def PyDict.values {α β : Type} (d : PyDict α β) : List β :=
  d.map (fun kv => kv.2)

/-- `d[m][k] = v` on a `defaultdict(dict)`: reading `d[m]` creates an empty
bucket when missing, then the inner assignment stores `v` under `k`. -/
def PyDict.setNested {κ V : Type} [DecidableEq κ]
    (d : PyDict String (PyDict κ V)) (m : String) (k : κ) (v : V) :
    PyDict String (PyDict κ V) :=
  PyDict.set d m (PyDict.set ((PyDict.get d m).getD []) k v)

/-- `d[m][k]` as an option. -/
def PyDict.lookup2 {κ V : Type} [DecidableEq κ]
    (d : PyDict String (PyDict κ V)) (m : String) (k : κ) : Option V :=
  (PyDict.get d m).bind (fun b => PyDict.get b k)

/-- The serialized cart shape `Cart.cart_serializable` builds and
`Cart.__init__` reads: model path, then primary key (serialized by the source
as `str(pk)` and matched back against products by `pk__in`, which coerces;
represented by the integer itself), then the `to_dict` record. -/
abbrev SerializedCart := PyDict String (PyDict Nat SerItem)

/-- The session entry under the cart's session key (`none` when the key is
absent), together with the `session.modified` flag. -/
structure Session where
  data : Option SerializedCart
  modified : Bool
  deriving DecidableEq

/-- The exceptions the cart code can raise. -/
inductive PyError where
  | valueError : String → PyError
  | keyError : String → PyError
  deriving DecidableEq

/-- `Cart` state: the nested `_items_dict`, whether that dict is the
auto-creating `defaultdict(dict)` built by `__init__` (line 42) or the plain
dict that `clear` installs (line 149), and the session. -/
structure Cart where
  itemsDict : PyDict String (PyDict PKey CartItem)
  isDefaultDict : Bool
  session : Session
  deriving DecidableEq

/-- `Cart.get_product_model_path(model)`: the dotted import path of the
instance's class, which the `Product` embedding carries directly. -/
def get_product_model_path (p : Product) : String :=
  p.model

/-- The items of a nested dict:
`[i for _ in self._items_dict.values() for i in _.values()]`. -/
def dictItems (D : PyDict String (PyDict PKey CartItem)) : List CartItem :=
  (PyDict.values D).flatMap PyDict.values

/-- `Cart.items`. -/
def Cart.items (c : Cart) : List CartItem :=
  dictItems c.itemsDict

/-- `Cart.products`: `[item.product for item in self.items]`. -/
def Cart.products (c : Cart) : List Product :=
  c.items.map (fun i => i.product)

/-- `Cart.count`: `sum([item.quantity for item in self.items])`. -/
def Cart.count (c : Cart) : Int :=
  (c.items.map (fun i => i.quantity)).sum

/-- `Cart.unique_count`:
`len([i for _ in self._items_dict.values() for i in _.values()])`. -/
def Cart.unique_count (c : Cart) : Nat :=
  ((PyDict.values c.itemsDict).flatMap PyDict.values).length

/-- `Cart.is_empty`: `self.unique_count == 0`. -/
def Cart.is_empty (c : Cart) : Bool :=
  c.unique_count == 0

/-- `Cart.total`: `sum([item.subtotal for item in self.items])`. -/
def Cart.total (c : Cart) : Rat :=
  (c.items.map (fun i => i.subtotal)).sum

/-- `Cart.cart_serializable`: rebuild the nested representation from the flat
item list, keying by model path and then by the product's primary key. -/
def Cart.cart_serializable (c : Cart) : SerializedCart :=
  c.items.foldl
    (fun rep item =>
      PyDict.setNested rep (get_product_model_path item.product) item.product.pk
        item.to_dict)
    []

/-- `Cart.update_session`: store `cart_serializable` under the cart's session
key and mark the session modified. -/
def Cart.update_session (c : Cart) : Cart :=
  { c with session := { data := some c.cart_serializable, modified := true } }

/-- `self._items_dict[model]`: a `defaultdict(dict)` inserts and returns a
fresh empty bucket on a missing key, a plain dict raises `KeyError`.  Returns
the bucket together with the dict after the access.  (When the access raises,
Python may already have inserted an empty bucket on an earlier defaultdict
read; an empty bucket is invisible to every observable of the class --
`items`, `products`, the counts, membership and `cart_serializable` -- and a
later defaultdict read recreates it, so the error case drops it.) -/
def Cart.getBucket (c : Cart) (model : String) :
    Except PyError (PyDict PKey CartItem × PyDict String (PyDict PKey CartItem)) :=
  match PyDict.get c.itemsDict model with
  | some b => Except.ok (b, c.itemsDict)
  | none =>
      if c.isDefaultDict then Except.ok ([], PyDict.set c.itemsDict model [])
      else Except.error (PyError.keyError model)

/-- `Cart.add(product, price=None, quantity=1)` (cart.py lines 101-119). -/
def Cart.add (c : Cart) (product : Product) (price : Option Rat) (quantity : Int) :
    Except PyError Cart :=
  let model := get_product_model_path product
  if quantity < 1 then
    Except.error (PyError.valueError "Quantity must be at least 1 when adding to cart")
  else if product ∈ c.products then
    match c.getBucket model with
    | Except.error e => Except.error e
    | Except.ok (bucket, d) =>
        match PyDict.get bucket (PKey.int product.pk) with
        | none => Except.error (PyError.keyError (toString product.pk))
        | some item =>
            Except.ok (Cart.update_session { c with
              itemsDict := PyDict.set d model
                (PyDict.set bucket (PKey.int product.pk)
                  { item with quantity := item.quantity + quantity }) })
  else
    match price with
    | none => Except.error (PyError.valueError "Missing price when adding to cart")
    | some pr =>
        match c.getBucket model with
        | Except.error e => Except.error e
        | Except.ok (bucket, d) =>
            Except.ok (Cart.update_session { c with
              itemsDict := PyDict.set d model
                (PyDict.set bucket (PKey.int product.pk)
                  (CartItem.make product quantity pr)) })

/-- `Cart.remove(product)` (cart.py lines 121-129). -/
def Cart.remove (c : Cart) (product : Product) : Except PyError Cart :=
  let model := get_product_model_path product
  if product ∈ c.products then
    match c.getBucket model with
    | Except.error e => Except.error e
    | Except.ok (bucket, d) =>
        match PyDict.get bucket (PKey.int product.pk) with
        | none => Except.error (PyError.keyError (toString product.pk))
        | some _ =>
            Except.ok (Cart.update_session { c with
              itemsDict := PyDict.set d model
                (PyDict.del bucket (PKey.int product.pk)) })
  else
    Except.ok c

/-- `Cart.remove_single(product)` (cart.py lines 131-143). -/
def Cart.remove_single (c : Cart) (product : Product) : Except PyError Cart :=
  let model := get_product_model_path product
  if product ∈ c.products then
    match c.getBucket model with
    | Except.error e => Except.error e
    | Except.ok (bucket, d) =>
        match PyDict.get bucket (PKey.int product.pk) with
        | none => Except.error (PyError.keyError (toString product.pk))
        | some item =>
            if item.quantity ≤ 1 then
              Except.ok (Cart.update_session { c with
                itemsDict := PyDict.set d model
                  (PyDict.del bucket (PKey.int product.pk)) })
            else
              Except.ok (Cart.update_session { c with
                itemsDict := PyDict.set d model
                  (PyDict.set bucket (PKey.int product.pk)
                    { item with quantity := item.quantity - 1 }) })
  else
    Except.ok c

/-- `Cart.clear()` (cart.py lines 145-150): `self._items_dict = {}` installs a
plain dict (not a `defaultdict(dict)`), then persists. -/
def Cart.clear (c : Cart) : Cart :=
  Cart.update_session { c with itemsDict := [], isDefaultDict := false }

/-- `Cart.set_quantity(product, quantity)` (cart.py lines 152-168). -/
def Cart.set_quantity (c : Cart) (product : Product) (quantity : Int) :
    Except PyError Cart :=
  let model := get_product_model_path product
  if quantity < 0 then
    Except.error (PyError.valueError "Quantity must be positive when updating cart")
  else if product ∈ c.products then
    match c.getBucket model with
    | Except.error e => Except.error e
    | Except.ok (bucket, d) =>
        match PyDict.get bucket (PKey.int product.pk) with
        | none => Except.error (PyError.keyError (toString product.pk))
        | some item =>
            if quantity < 1 then
              Except.ok (Cart.update_session { c with
                itemsDict := PyDict.set d model
                  (PyDict.del bucket (PKey.int product.pk)) })
            else
              Except.ok (Cart.update_session { c with
                itemsDict := PyDict.set d model
                  (PyDict.set bucket (PKey.int product.pk)
                    { item with quantity := quantity }) })
  else
    Except.ok c

/-- `Cart.__init__(session, session_key=None)` (cart.py lines 41-63).  `store`
models the union over model classes of `Model.objects.all()` (every live
product record, each carrying its model path); `filt` models the optional
`CART_PRODUCT_LOOKUP` filter applied by `filter_products`.  When the session
holds a serialized cart, each model bucket is rebuilt from the products of
that model that pass the filter and whose primary key appears among the bucket
keys; the rebuilt items are stored under `str(product.pk)` keys. -/
def Cart.init (session : Session) (store : List Product) (filt : Product → Bool) :
    Cart :=
  match session.data with
  | none => { itemsDict := [], isDefaultDict := true, session := session }
  | some rep =>
      { itemsDict :=
          rep.foldl
            (fun d mi =>
              (((store.filter (fun p => p.model == mi.1 && filt p)).filter
                  (fun p => (PyDict.keys mi.2).contains p.pk)).foldl
                (fun d p =>
                  match PyDict.get mi.2 p.pk with
                  | some s =>
                      PyDict.setNested d mi.1 (PKey.str p.pk)
                        (CartItem.make p s.quantity s.price)
                  | none => d)
                d))
            []
        isDefaultDict := true
        session := session }

/-! ### Concrete fixtures

Products mirror `carton/tests/models.py` (`Product` and `Ticket`, integer
primary keys). -/

/-- A session with no stored cart under the cart key. -/
def sessionA : Session := { data := none, modified := false }

def prodA : Product := { model := "carton.tests.models.Product", pk := 1 }

def prodB : Product := { model := "carton.tests.models.Ticket", pk := 2 }

def prodC : Product := { model := "carton.tests.models.Product", pk := 3 }

/-- A freshly constructed cart over an empty session. -/
def cart0 : Cart := Cart.init sessionA [] (fun _ => true)

/-- The cart after `cart0.add(prodA, price=5)`. -/
def cartA : Cart := (Cart.add cart0 prodA (some 5) 1).toOption.getD cart0

/-- The cart after `cart0.add(prodB, price=3, quantity=2)`. -/
def cartB : Cart := (Cart.add cart0 prodB (some 3) 2).toOption.getD cart0

/-- The cart after `cart0.add(prodC, price=7)`. -/
def cartC : Cart := (Cart.add cart0 prodC (some 7) 1).toOption.getD cart0

/-- A new `Cart` built from `cartA`'s session (the next request), with `prodA`
still live in the store and no lookup filter. -/
def loadedCartA : Cart := Cart.init cartA.session [prodA] (fun _ => true)

/-- A new `Cart` built from `cartB`'s session, with `prodB` still live. -/
def loadedCartB : Cart := Cart.init cartB.session [prodB] (fun _ => true)

/-- A new `Cart` built from `cartC`'s session, with `prodC` still live. -/
def loadedCartC : Cart := Cart.init cartC.session [prodC] (fun _ => true)

/-! ### Claims C2-C6: divergences between the spec and the code -/

/-- Claim C2 fails on the code: on a cart on which `clear()` has run, the first
`add` of a product raises `KeyError` instead of creating the item, because
`clear` installs a plain dict while `add` relies on the auto-creating
`defaultdict(dict)` bucket access; so two successive adds do not leave one
item of quantity `q1 + q2`.  The cart does not contain the product, the
quantity is at least 1 and a price is supplied, yet `add` raises. -/
theorem C2_clear_breaks_add :
    prodA ∉ (Cart.clear cart0).products ∧
    Cart.add (Cart.clear cart0) prodA (some 5) 2
      = Except.error (PyError.keyError "carton.tests.models.Product") :=
  ⟨by decide, rfl⟩

/-- Claim C3 fails on the code: `add` can raise outside the two contract
cases.  After `clear()` (here on a cart that previously held `prodA`), adding
a new product with quantity 1 and an explicit price raises
`KeyError` on the model-path bucket, not one of the claimed `ValueError`s. -/
theorem C3_add_error_outside_contract :
    Cart.add cart0 prodA (some 5) 1 = Except.ok cartA ∧
    ¬ ((1 : Int) < 1) ∧
    prodB ∉ (Cart.clear cartA).products ∧
    Cart.add (Cart.clear cartA) prodB (some 7) 1
      = Except.error (PyError.keyError "carton.tests.models.Ticket") :=
  ⟨rfl, by decide, by decide, rfl⟩

/-- Claim C4 fails on the code: `set_quantity` with a nonnegative quantity can
raise.  On a cart rehydrated from the session, the item is stored under the
string key `str(pk)` (`__init__`, line 59) but `set_quantity` indexes with the
integer `pk` (line 163), so setting the quantity of a present product raises
`KeyError` although the quantity is nonnegative. -/
theorem C4_set_quantity_key_error_on_rehydrated_cart :
    Cart.add cart0 prodC (some 7) 1 = Except.ok cartC ∧
    prodC ∈ loadedCartC.products ∧
    ¬ ((2 : Int) < 0) ∧
    Cart.set_quantity loadedCartC prodC 2 = Except.error (PyError.keyError "3") :=
  ⟨rfl, by decide, by decide, rfl⟩

/-- Claim C5 fails on the code: on a cart rehydrated from the session,
`remove_single` on a present product of quantity 2 raises `KeyError` (string
key from `__init__` versus integer index at line 138) instead of decrementing
the quantity to 1. -/
theorem C5_remove_single_key_error_on_rehydrated_cart :
    Cart.add cart0 prodB (some 3) 2 = Except.ok cartB ∧
    prodB ∈ loadedCartB.products ∧
    loadedCartB.items.map (fun i => i.quantity) = [2] ∧
    Cart.remove_single loadedCartB prodB = Except.error (PyError.keyError "2") :=
  ⟨rfl, by decide, by decide, rfl⟩

/-- Claim C6 fails on the code: on a cart rehydrated from the session,
`remove` of a present product raises `KeyError` (string key from `__init__`
versus integer index at line 128) instead of deleting the entry and
persisting. -/
theorem C6_remove_key_error_on_rehydrated_cart :
    Cart.add cart0 prodA (some 5) 1 = Except.ok cartA ∧
    prodA ∈ loadedCartA.products ∧
    Cart.remove loadedCartA prodA = Except.error (PyError.keyError "1") :=
  ⟨rfl, by decide, rfl⟩

/-! ### Claims C9 and C10 -/

/-- A cart with empty items over a given session, as `__init__` builds when
the session has no entry under the cart key. -/
def emptyCartOver (s : Session) : Cart :=
  { itemsDict := [], isDefaultDict := true, session := s }

/-- Claim C9: after `clear()` the cart has no items, `is_empty` holds, the
session entry equals the serialization of an empty cart, and the session is
marked modified. -/
theorem C9_clear_empties_and_persists (c : Cart) :
    (Cart.clear c).items = [] ∧
    (Cart.clear c).is_empty = true ∧
    (Cart.clear c).session.data = some (Cart.cart_serializable (emptyCartOver c.session)) ∧
    (Cart.clear c).session.modified = true :=
  ⟨rfl, rfl, rfl, rfl⟩

/-- Claim C10: for a product not in the cart, `remove_single` and
`set_quantity` with nonnegative quantity are silent no-ops (no error, no state
change, no session write), while `set_quantity` with negative quantity still
raises because the quantity check precedes the presence check. -/
theorem C10_absent_product_ops (c : Cart) (p : Product) (q : Int)
    (hp : p ∉ c.products) :
    Cart.remove_single c p = Except.ok c ∧
    (0 ≤ q → Cart.set_quantity c p q = Except.ok c) ∧
    (q < 0 → Cart.set_quantity c p q
        = Except.error (PyError.valueError "Quantity must be positive when updating cart")) := by
  refine ⟨?_, ?_, ?_⟩
  · simp [Cart.remove_single, hp]
  · intro hq
    have hq' : ¬ q < 0 := by omega
    simp [Cart.set_quantity, hp, hq']
  · intro hq
    simp [Cart.set_quantity, hq]

/-- Witness for C10 at a concrete cart, product and quantity. -/
theorem C10_witness :
    Cart.remove_single cart0 prodA = Except.ok cart0 ∧
    (0 ≤ (2 : Int) → Cart.set_quantity cart0 prodA 2 = Except.ok cart0) ∧
    ((2 : Int) < 0 → Cart.set_quantity cart0 prodA 2
        = Except.error (PyError.valueError "Quantity must be positive when updating cart")) :=
  C10_absent_product_ops cart0 prodA 2 (by decide)

/-! ### Association-list dict lemmas -/

theorem PyDict.keys_nil {α β : Type} : PyDict.keys ([] : PyDict α β) = [] := rfl

theorem PyDict.keys_cons {α β : Type} (kv : α × β) (d : PyDict α β) :
    PyDict.keys (kv :: d) = kv.1 :: PyDict.keys d := rfl

theorem PyDict.get_set {α β : Type} [DecidableEq α] (d : PyDict α β) (k k' : α) (v : β) :
    PyDict.get (PyDict.set d k v) k' = if k' = k then some v else PyDict.get d k' := by
  induction d with
  | nil => simp [PyDict.set, PyDict.get]
  | cons kv rest ih =>
    obtain ⟨k₁, v₁⟩ := kv
    by_cases h1 : k = k₁
    · subst h1
      by_cases h2 : k' = k <;> simp [PyDict.set, PyDict.get, h2]
    · by_cases h2 : k' = k₁
      · subst h2
        simp [PyDict.set, PyDict.get, h1, Ne.symm h1]
      · simp [PyDict.set, PyDict.get, h1, h2, ih]

theorem PyDict.mem_set_cases {α β : Type} [DecidableEq α] {d : PyDict α β}
    {k : α} {v : β} {x : α × β} (hx : x ∈ PyDict.set d k v) : x ∈ d ∨ x = (k, v) := by
  induction d with
  | nil => exact Or.inr (by simpa [PyDict.set] using hx)
  | cons kv rest ih =>
    obtain ⟨k₁, v₁⟩ := kv
    simp only [PyDict.set] at hx
    split_ifs at hx with h1
    · rcases List.mem_cons.mp hx with h | h
      · subst h1; exact Or.inr (by simpa using h)
      · exact Or.inl (List.mem_cons_of_mem _ h)
    · rcases List.mem_cons.mp hx with h | h
      · exact Or.inl (h ▸ List.mem_cons_self _ _)
      · rcases ih h with h' | h'
        · exact Or.inl (List.mem_cons_of_mem _ h')
        · exact Or.inr h'

theorem PyDict.keys_set {α β : Type} [DecidableEq α] (d : PyDict α β) (k : α) (v : β) :
    PyDict.keys (PyDict.set d k v)
      = if k ∈ PyDict.keys d then PyDict.keys d else PyDict.keys d ++ [k] := by
  induction d with
  | nil => simp [PyDict.set, PyDict.keys]
  | cons kv rest ih =>
    obtain ⟨k₁, v₁⟩ := kv
    by_cases h1 : k = k₁
    · subst h1
      simp [PyDict.set, PyDict.keys_cons, List.mem_cons]
    · by_cases h2 : k ∈ PyDict.keys rest
      · simp [PyDict.set, PyDict.keys_cons, h1, h2, ih, List.mem_cons]
      · simp [PyDict.set, PyDict.keys_cons, h1, h2, ih, List.mem_cons]

theorem PyDict.keys_nodup_set {α β : Type} [DecidableEq α] {d : PyDict α β}
    (h : (PyDict.keys d).Nodup) (k : α) (v : β) :
    (PyDict.keys (PyDict.set d k v)).Nodup := by
  rw [PyDict.keys_set]
  split_ifs with h1
  · exact h
  · simp [List.nodup_append, h, h1]

theorem PyDict.mem_of_get_eq_some {α β : Type} [DecidableEq α] {d : PyDict α β}
    {k : α} {v : β} (h : PyDict.get d k = some v) : (k, v) ∈ d := by
  induction d with
  | nil => simp [PyDict.get] at h
  | cons kv rest ih =>
    obtain ⟨k₁, v₁⟩ := kv
    simp only [PyDict.get] at h
    split_ifs at h with h1
    · subst h1
      cases h
      exact List.mem_cons_self _ _
    · exact List.mem_cons_of_mem _ (ih h)

theorem PyDict.get_eq_some_of_mem {α β : Type} [DecidableEq α] {d : PyDict α β}
    (hnd : (PyDict.keys d).Nodup) {k : α} {v : β} (h : (k, v) ∈ d) :
    PyDict.get d k = some v := by
  induction d with
  | nil => simp at h
  | cons kv rest ih =>
    obtain ⟨k₁, v₁⟩ := kv
    simp only [PyDict.keys_cons, List.nodup_cons] at hnd
    rcases List.mem_cons.mp h with h' | h'
    · cases h'
      simp [PyDict.get]
    · have hk : k ≠ k₁ := by
        intro he
        subst he
        exact hnd.1 (List.mem_map.mpr ⟨(k, v), h', rfl⟩)
      simp only [PyDict.get, if_neg hk]
      exact ih hnd.2 h'

theorem PyDict.keys_mem_iff {α β : Type} [DecidableEq α] {d : PyDict α β} {k : α} :
    k ∈ PyDict.keys d ↔ ∃ v, PyDict.get d k = some v := by
  induction d with
  | nil => simp [PyDict.keys, PyDict.get]
  | cons kv rest ih =>
    obtain ⟨k₁, v₁⟩ := kv
    by_cases hk : k = k₁
    · subst hk
      simp [PyDict.keys_cons, PyDict.get]
    · simp only [PyDict.keys_cons, List.mem_cons, PyDict.get, if_neg hk]
      constructor
      · rintro (h | h)
        · exact absurd h hk
        · exact ih.mp h
      · intro h
        exact Or.inr (ih.mpr h)

theorem PyDict.mem_del_sub {α β : Type} [DecidableEq α] {d : PyDict α β}
    {k : α} {x : α × β} (hx : x ∈ PyDict.del d k) : x ∈ d := by
  induction d with
  | nil => simp [PyDict.del] at hx
  | cons kv rest ih =>
    obtain ⟨k₁, v₁⟩ := kv
    simp only [PyDict.del] at hx
    split_ifs at hx with h1
    · exact List.mem_cons_of_mem _ hx
    · rcases List.mem_cons.mp hx with h | h
      · exact h ▸ List.mem_cons_self _ _
      · exact List.mem_cons_of_mem _ (ih h)

theorem PyDict.keys_del_sublist {α β : Type} [DecidableEq α] (d : PyDict α β) (k : α) :
    (PyDict.keys (PyDict.del d k)).Sublist (PyDict.keys d) := by
  induction d with
  | nil => simp [PyDict.del]
  | cons kv rest ih =>
    obtain ⟨k₁, v₁⟩ := kv
    by_cases h1 : k = k₁
    · simp only [PyDict.del, if_pos h1, PyDict.keys_cons]
      exact List.sublist_cons_self _ _
    · simp only [PyDict.del, if_neg h1, PyDict.keys_cons]
      exact List.Sublist.cons₂ _ ih

theorem PyDict.set_set_self {α β : Type} [DecidableEq α] (d : PyDict α β) (k : α) (v w : β) :
    PyDict.set (PyDict.set d k v) k w = PyDict.set d k w := by
  induction d with
  | nil => simp [PyDict.set]
  | cons kv rest ih =>
    obtain ⟨k₁, v₁⟩ := kv
    by_cases h1 : k = k₁
    · simp [PyDict.set, h1]
    · simp [PyDict.set, h1, ih]

/-! ### The structural invariant of `_items_dict` maintained by the mutators -/

/-- A bucket of `_items_dict` as the mutators build it: keys are distinct, each
entry is stored under the integer key of its product's primary key, the
product belongs to the bucket's model, and the quantity is at least 1. -/
def BucketOk (model : String) (b : PyDict PKey CartItem) : Prop :=
  (PyDict.keys b).Nodup ∧
  ∀ kv ∈ b, kv.1 = PKey.int kv.2.product.pk ∧ kv.2.product.model = model ∧
    1 ≤ kv.2.quantity

/-- `_items_dict` as the mutators build it, starting from an empty cart. -/
def DictInv (D : PyDict String (PyDict PKey CartItem)) : Prop :=
  (PyDict.keys D).Nodup ∧ ∀ mb ∈ D, BucketOk mb.1 mb.2

theorem bucketOk_of_get {D : PyDict String (PyDict PKey CartItem)}
    (h : DictInv D) (model : String) :
    BucketOk model ((PyDict.get D model).getD []) := by
  cases hg : PyDict.get D model with
  | none => exact ⟨List.nodup_nil, by simp⟩
  | some b =>
    have hb := h.2 (model, b) (PyDict.mem_of_get_eq_some hg)
    simpa using hb

theorem dictInv_set {D : PyDict String (PyDict PKey CartItem)} {model : String}
    {b' : PyDict PKey CartItem} (h : DictInv D) (hb : BucketOk model b') :
    DictInv (PyDict.set D model b') := by
  refine ⟨PyDict.keys_nodup_set h.1 _ _, fun mb hmb => ?_⟩
  rcases PyDict.mem_set_cases hmb with h' | h'
  · exact h.2 mb h'
  · subst h'; exact hb

theorem bucketOk_set {model : String} {b : PyDict PKey CartItem}
    (hb : BucketOk model b) {k : PKey} {v : CartItem}
    (hv : k = PKey.int v.product.pk ∧ v.product.model = model ∧ 1 ≤ v.quantity) :
    BucketOk model (PyDict.set b k v) := by
  refine ⟨PyDict.keys_nodup_set hb.1 _ _, fun kv hkv => ?_⟩
  rcases PyDict.mem_set_cases hkv with h' | h'
  · exact hb.2 kv h'
  · subst h'; exact hv

theorem bucketOk_del {model : String} {b : PyDict PKey CartItem}
    (hb : BucketOk model b) (k : PKey) : BucketOk model (PyDict.del b k) :=
  ⟨(PyDict.keys_del_sublist b k).nodup hb.1,
   fun kv hkv => hb.2 kv (PyDict.mem_del_sub hkv)⟩

/-- In a successful `self._items_dict[model]` access, the returned bucket is
the current bucket of that model (or a fresh empty one), and storing a bucket
back into the returned dict is storing it into the original dict. -/
theorem getBucket_ok {c : Cart} {model : String} {b : PyDict PKey CartItem}
    {d : PyDict String (PyDict PKey CartItem)}
    (h : Cart.getBucket c model = Except.ok (b, d)) :
    b = (PyDict.get c.itemsDict model).getD [] ∧
    ∀ b', PyDict.set d model b' = PyDict.set c.itemsDict model b' := by
  unfold Cart.getBucket at h
  cases hg : PyDict.get c.itemsDict model with
  | some b0 =>
    rw [hg] at h
    injection h with h'
    injection h' with hb hd
    subst hb
    subst hd
    exact ⟨by simp [hg], fun b' => rfl⟩
  | none =>
    rw [hg] at h
    split_ifs at h with hd
    · injection h with h'
      injection h' with hb hdd
      subst hb
      subst hdd
      exact ⟨by simp [hg], fun b' => PyDict.set_set_self _ _ _ _⟩

theorem dictInv_set_entry {D : PyDict String (PyDict PKey CartItem)}
    (h : DictInv D) {model : String} {it : CartItem}
    (hm : it.product.model = model) (hq : 1 ≤ it.quantity) :
    DictInv (PyDict.set D model
      (PyDict.set ((PyDict.get D model).getD []) (PKey.int it.product.pk) it)) :=
  dictInv_set h (bucketOk_set (bucketOk_of_get h model) ⟨rfl, hm, hq⟩)

theorem dictInv_del_entry {D : PyDict String (PyDict PKey CartItem)}
    (h : DictInv D) (model : String) (k : PKey) :
    DictInv (PyDict.set D model (PyDict.del ((PyDict.get D model).getD []) k)) :=
  dictInv_set h (bucketOk_del (bucketOk_of_get h model) k)

theorem update_session_itemsDict (c : Cart) :
    (Cart.update_session c).itemsDict = c.itemsDict := rfl

theorem dictInv_add {c c' : Cart} {p : Product} {pr : Option Rat} {q : Int}
    (h : DictInv c.itemsDict) (hok : Cart.add c p pr q = Except.ok c') :
    DictInv c'.itemsDict := by
  unfold Cart.add at hok
  by_cases h1 : q < 1
  · rw [if_pos h1] at hok
    exact Except.noConfusion hok
  · rw [if_neg h1] at hok
    by_cases h2 : p ∈ c.products
    · rw [if_pos h2] at hok
      cases hgb : Cart.getBucket c (get_product_model_path p) with
      | error e =>
        rw [hgb] at hok
        dsimp only at hok
        exact Except.noConfusion hok
      | ok bd =>
        obtain ⟨bucket, d⟩ := bd
        rw [hgb] at hok
        dsimp only at hok
        cases hg : PyDict.get bucket (PKey.int p.pk) with
        | none =>
          rw [hg] at hok
          dsimp only at hok
          exact Except.noConfusion hok
        | some item =>
          rw [hg] at hok
          dsimp only at hok
          injection hok with hok'
          subst hok'
          obtain ⟨hb, hset⟩ := getBucket_ok hgb
          subst hb
          have hmem := PyDict.mem_of_get_eq_some hg
          have hcond := (bucketOk_of_get h (get_product_model_path p)).2 _ hmem
          rw [update_session_itemsDict, hset]
          refine dictInv_set h (bucketOk_set (bucketOk_of_get h _) ⟨?_, ?_, ?_⟩)
          · simpa using hcond.1
          · simpa using hcond.2.1
          · have hq := hcond.2.2
            simp only at hq ⊢
            omega
    · rw [if_neg h2] at hok
      cases pr with
      | none => exact Except.noConfusion hok
      | some pr' =>
        cases hgb : Cart.getBucket c (get_product_model_path p) with
        | error e =>
          rw [hgb] at hok
          dsimp only at hok
          exact Except.noConfusion hok
        | ok bd =>
          obtain ⟨bucket, d⟩ := bd
          rw [hgb] at hok
          dsimp only at hok
          injection hok with hok'
          subst hok'
          obtain ⟨hb, hset⟩ := getBucket_ok hgb
          subst hb
          rw [update_session_itemsDict, hset]
          refine dictInv_set h (bucketOk_set (bucketOk_of_get h _) ⟨rfl, rfl, ?_⟩)
          show 1 ≤ q
          omega

theorem dictInv_remove {c c' : Cart} {p : Product}
    (h : DictInv c.itemsDict) (hok : Cart.remove c p = Except.ok c') :
    DictInv c'.itemsDict := by
  unfold Cart.remove at hok
  by_cases h2 : p ∈ c.products
  · rw [if_pos h2] at hok
    cases hgb : Cart.getBucket c (get_product_model_path p) with
    | error e =>
      rw [hgb] at hok
      dsimp only at hok
      exact Except.noConfusion hok
    | ok bd =>
      obtain ⟨bucket, d⟩ := bd
      rw [hgb] at hok
      dsimp only at hok
      cases hg : PyDict.get bucket (PKey.int p.pk) with
      | none =>
        rw [hg] at hok
        dsimp only at hok
        exact Except.noConfusion hok
      | some item =>
        rw [hg] at hok
        dsimp only at hok
        injection hok with hok'
        subst hok'
        obtain ⟨hb, hset⟩ := getBucket_ok hgb
        subst hb
        rw [update_session_itemsDict, hset]
        exact dictInv_del_entry h _ _
  · rw [if_neg h2] at hok
    injection hok with hok'
    subst hok'
    exact h

theorem dictInv_remove_single {c c' : Cart} {p : Product}
    (h : DictInv c.itemsDict) (hok : Cart.remove_single c p = Except.ok c') :
    DictInv c'.itemsDict := by
  unfold Cart.remove_single at hok
  by_cases h2 : p ∈ c.products
  · rw [if_pos h2] at hok
    cases hgb : Cart.getBucket c (get_product_model_path p) with
    | error e =>
      rw [hgb] at hok
      dsimp only at hok
      exact Except.noConfusion hok
    | ok bd =>
      obtain ⟨bucket, d⟩ := bd
      rw [hgb] at hok
      dsimp only at hok
      cases hg : PyDict.get bucket (PKey.int p.pk) with
      | none =>
        rw [hg] at hok
        dsimp only at hok
        exact Except.noConfusion hok
      | some item =>
        rw [hg] at hok
        dsimp only at hok
        obtain ⟨hb, hset⟩ := getBucket_ok hgb
        subst hb
        have hmem := PyDict.mem_of_get_eq_some hg
        have hcond := (bucketOk_of_get h (get_product_model_path p)).2 _ hmem
        by_cases h3 : item.quantity ≤ 1
        · rw [if_pos h3] at hok
          injection hok with hok'
          subst hok'
          rw [update_session_itemsDict, hset]
          exact dictInv_del_entry h _ _
        · rw [if_neg h3] at hok
          injection hok with hok'
          subst hok'
          rw [update_session_itemsDict, hset]
          refine dictInv_set h (bucketOk_set (bucketOk_of_get h _) ⟨?_, ?_, ?_⟩)
          · simpa using hcond.1
          · simpa using hcond.2.1
          · simp only
            omega
  · rw [if_neg h2] at hok
    injection hok with hok'
    subst hok'
    exact h

theorem dictInv_set_quantity {c c' : Cart} {p : Product} {q : Int}
    (h : DictInv c.itemsDict) (hok : Cart.set_quantity c p q = Except.ok c') :
    DictInv c'.itemsDict := by
  unfold Cart.set_quantity at hok
  by_cases h1 : q < 0
  · rw [if_pos h1] at hok
    exact Except.noConfusion hok
  · rw [if_neg h1] at hok
    by_cases h2 : p ∈ c.products
    · rw [if_pos h2] at hok
      cases hgb : Cart.getBucket c (get_product_model_path p) with
      | error e =>
        rw [hgb] at hok
        dsimp only at hok
        exact Except.noConfusion hok
      | ok bd =>
        obtain ⟨bucket, d⟩ := bd
        rw [hgb] at hok
        dsimp only at hok
        cases hg : PyDict.get bucket (PKey.int p.pk) with
        | none =>
          rw [hg] at hok
          dsimp only at hok
          exact Except.noConfusion hok
        | some item =>
          rw [hg] at hok
          dsimp only at hok
          obtain ⟨hb, hset⟩ := getBucket_ok hgb
          subst hb
          have hmem := PyDict.mem_of_get_eq_some hg
          have hcond := (bucketOk_of_get h (get_product_model_path p)).2 _ hmem
          by_cases h3 : q < 1
          · rw [if_pos h3] at hok
            injection hok with hok'
            subst hok'
            rw [update_session_itemsDict, hset]
            exact dictInv_del_entry h _ _
          · rw [if_neg h3] at hok
            injection hok with hok'
            subst hok'
            rw [update_session_itemsDict, hset]
            refine dictInv_set h (bucketOk_set (bucketOk_of_get h _) ⟨?_, ?_, ?_⟩)
            · simpa using hcond.1
            · simpa using hcond.2.1
            · simp only
              omega
    · rw [if_neg h2] at hok
      injection hok with hok'
      subst hok'
      exact h

/-! ### Reachable cart states (claim C8) -/

/-- Cart states reachable through the public mutators from a cart constructed
over a session with no stored cart (the "empty cart").  Operations that raise
leave the state unchanged, so only successful steps appear. -/
inductive Reachable : Cart → Prop where
  | empty (s : Session) : Reachable (emptyCartOver s)
  | add (c : Cart) (p : Product) (pr : Option Rat) (q : Int) (c' : Cart) :
      Reachable c → Cart.add c p pr q = Except.ok c' → Reachable c'
  | remove (c : Cart) (p : Product) (c' : Cart) :
      Reachable c → Cart.remove c p = Except.ok c' → Reachable c'
  | remove_single (c : Cart) (p : Product) (c' : Cart) :
      Reachable c → Cart.remove_single c p = Except.ok c' → Reachable c'
  | set_quantity (c : Cart) (p : Product) (q : Int) (c' : Cart) :
      Reachable c → Cart.set_quantity c p q = Except.ok c' → Reachable c'
  | clear (c : Cart) : Reachable c → Reachable (Cart.clear c)

theorem dictInv_of_reachable {c : Cart} (h : Reachable c) : DictInv c.itemsDict := by
  induction h with
  | empty s => exact ⟨List.nodup_nil, by simp [emptyCartOver]⟩
  | add c p pr q c' hr hok ih => exact dictInv_add ih hok
  | remove c p c' hr hok ih => exact dictInv_remove ih hok
  | remove_single c p c' hr hok ih => exact dictInv_remove_single ih hok
  | set_quantity c p q c' hr hok ih => exact dictInv_set_quantity ih hok
  | clear c hr ih => exact ⟨List.nodup_nil, by simp [Cart.clear, Cart.update_session]⟩

theorem PyDict.key_mem_keys {α β : Type} {d : PyDict α β} {kv : α × β}
    (h : kv ∈ d) : kv.1 ∈ PyDict.keys d :=
  List.mem_map.mpr ⟨kv, h, rfl⟩

theorem quantity_pos_of_dictInv {D : PyDict String (PyDict PKey CartItem)}
    (h : DictInv D) : ∀ x ∈ dictItems D, 1 ≤ x.quantity := by
  intro x hx
  unfold dictItems at hx
  rcases List.mem_flatMap.mp hx with ⟨b, hbv, hxb⟩
  rcases List.mem_map.mp hbv with ⟨mb, hmb, rfl⟩
  rcases List.mem_map.mp hxb with ⟨kv, hkv, rfl⟩
  exact ((h.2 mb hmb).2 kv hkv).2.2

theorem product_model_mem_keys {D : PyDict String (PyDict PKey CartItem)}
    (h : DictInv D) {x : CartItem} (hx : x ∈ dictItems D) :
    x.product.model ∈ PyDict.keys D := by
  unfold dictItems at hx
  rcases List.mem_flatMap.mp hx with ⟨b, hbv, hxb⟩
  rcases List.mem_map.mp hbv with ⟨mb, hmb, rfl⟩
  rcases List.mem_map.mp hxb with ⟨kv, hkv, rfl⟩
  have hmod := ((h.2 mb hmb).2 kv hkv).2.1
  exact hmod ▸ PyDict.key_mem_keys hmb

theorem products_nodup_of_dictInv {D : PyDict String (PyDict PKey CartItem)}
    (h : DictInv D) :
    ((dictItems D).map (fun i => i.product)).Nodup := by
  induction D with
  | nil => simp [dictItems, PyDict.values]
  | cons mb rest ih =>
    obtain ⟨m, b⟩ := mb
    have hrest : DictInv rest := by
      constructor
      · have h1 := h.1
        rw [PyDict.keys_cons, List.nodup_cons] at h1
        exact h1.2
      · exact fun x hx => h.2 x (List.mem_cons_of_mem _ hx)
    have hm : m ∉ PyDict.keys rest := by
      have h1 := h.1
      rw [PyDict.keys_cons, List.nodup_cons] at h1
      exact h1.1
    have hb : BucketOk m b := by
      simpa using h.2 (m, b) (List.mem_cons_self _ _)
    have hItems : dictItems ((m, b) :: rest) = PyDict.values b ++ dictItems rest := by
      simp [dictItems, PyDict.values]
    rw [hItems, List.map_append, List.nodup_append]
    refine ⟨?_, ih hrest, ?_⟩
    · unfold PyDict.values
      rw [List.map_map]
      refine List.Nodup.map_on ?_ (List.Nodup.of_map _ hb.1)
      intro kv₁ h₁ kv₂ h₂ heq
      simp only [Function.comp] at heq
      have e₁ := (hb.2 kv₁ h₁).1
      have e₂ := (hb.2 kv₂ h₂).1
      have hkeys : kv₁.1 = kv₂.1 := by
        rw [e₁, e₂, heq]
      exact List.inj_on_of_nodup_map hb.1 h₁ h₂ hkeys
    · intro x hx₁ hx₂
      rcases List.mem_map.mp hx₁ with ⟨i, hi, rfl⟩
      rcases List.mem_map.mp hx₂ with ⟨j, hj, hji⟩
      rcases List.mem_map.mp hi with ⟨kv, hkv, rfl⟩
      have him : kv.2.product.model = m := (hb.2 kv hkv).2.1
      have hjm := product_model_mem_keys hrest hj
      rw [hji, him] at hjm
      exact hm hjm

/-! ### Claims C7 and C8 -/

/-- Claim C7: the derived read-only views.  `total` is the sum of price times
quantity over the items, `count` the sum of the quantities, and
`unique_count` the number of distinct products, which is the length of the
flat items list (the hypothesis says the cart's products are distinct, which
holds for every cart the class builds; see C8). -/
theorem C7_derived_views (c : Cart) (h : (c.products).Nodup) :
    c.total = (c.items.map (fun i => i.price * (i.quantity : Rat))).sum ∧
    c.count = (c.items.map (fun i => i.quantity)).sum ∧
    c.unique_count = c.items.length ∧
    c.unique_count = (c.products).dedup.length := by
  refine ⟨rfl, rfl, rfl, ?_⟩
  rw [List.dedup_eq_self.mpr h]
  unfold Cart.products Cart.unique_count Cart.items dictItems
  rw [List.length_map]

/-- The cart holding `prodA` (quantity 1, price 5) and `prodB` (quantity 2,
price 3), built by two adds on a fresh cart. -/
def cartAB : Cart := (Cart.add cartA prodB (some 3) 2).toOption.getD cartA

/-- Witness for C7 at a concrete two-item cart. -/
theorem C7_witness :
    cartAB.total = (cartAB.items.map (fun i => i.price * (i.quantity : Rat))).sum ∧
    cartAB.count = (cartAB.items.map (fun i => i.quantity)).sum ∧
    cartAB.unique_count = cartAB.items.length ∧
    cartAB.unique_count = (cartAB.products).dedup.length :=
  C7_derived_views cartAB (by decide)

/-- Claim C8: every cart state reachable by the public operations from an
empty cart keeps each stored item at quantity at least 1 and holds at most one
entry per (model, primary key) pair. -/
theorem C8_reachable_invariant (c : Cart) (h : Reachable c) :
    (∀ item ∈ c.items, 1 ≤ item.quantity) ∧
    (c.items.map (fun i => i.product)).Nodup :=
  ⟨quantity_pos_of_dictInv (dictInv_of_reachable h),
   products_nodup_of_dictInv (dictInv_of_reachable h)⟩

/-- Witness for C8 at a concrete reachable cart (one successful add). -/
theorem C8_witness :
    (∀ item ∈ cartA.items, 1 ≤ item.quantity) ∧
    (cartA.items.map (fun i => i.product)).Nodup :=
  C8_reachable_invariant cartA
    (Reachable.add cart0 prodA (some 5) 1 cartA (Reachable.empty sessionA) rfl)

/-! ### Write-sequence view of serialization and rehydration (claim C1)

Both `cart_serializable` and the rebuild loop of `__init__` are left folds of
nested dict stores; the lemmas below characterize the final lookup of such a
fold when the written keys are distinct. -/

/-- A sequence of nested dict stores, applied left to right. -/
def writeAll {κ V : Type} [DecidableEq κ]
    (d : PyDict String (PyDict κ V)) (ws : List ((String × κ) × V)) :
    PyDict String (PyDict κ V) :=
  ws.foldl (fun d w => PyDict.setNested d w.1.1 w.1.2 w.2) d

theorem lookup2_setNested {κ V : Type} [DecidableEq κ]
    (d : PyDict String (PyDict κ V)) (m : String) (k : κ) (v : V)
    (m' : String) (k' : κ) :
    PyDict.lookup2 (PyDict.setNested d m k v) m' k'
      = if m' = m ∧ k' = k then some v else PyDict.lookup2 d m' k' := by
  unfold PyDict.lookup2 PyDict.setNested
  rw [PyDict.get_set]
  by_cases hm : m' = m
  · subst hm
    rw [if_pos rfl]
    by_cases hk : k' = k
    · subst hk
      simp [PyDict.get_set]
    · rw [Option.some_bind, PyDict.get_set, if_neg hk, if_neg (by simp [hk])]
      cases hg : PyDict.get d m' <;> simp [hg, PyDict.get]
  · rw [if_neg hm, if_neg (by simp [hm])]

theorem lookup2_writeAll_of_not_mem {κ V : Type} [DecidableEq κ]
    {ws : List ((String × κ) × V)} {m : String} {k : κ}
    (h : ∀ w ∈ ws, w.1 ≠ (m, k)) (d : PyDict String (PyDict κ V)) :
    PyDict.lookup2 (writeAll d ws) m k = PyDict.lookup2 d m k := by
  induction ws generalizing d with
  | nil => rfl
  | cons w rest ih =>
    have hw : w.1 ≠ (m, k) := h w (List.mem_cons_self _ _)
    have hrest : ∀ w' ∈ rest, w'.1 ≠ (m, k) :=
      fun w' hw' => h w' (List.mem_cons_of_mem _ hw')
    show PyDict.lookup2 (writeAll (PyDict.setNested d w.1.1 w.1.2 w.2) rest) m k = _
    rw [ih hrest, lookup2_setNested]
    rw [if_neg ?_]
    rintro ⟨rfl, rfl⟩
    exact hw (by simp)

theorem lookup2_writeAll_of_mem {κ V : Type} [DecidableEq κ]
    {ws : List ((String × κ) × V)} (hnd : (ws.map (fun w => w.1)).Nodup)
    {w : (String × κ) × V} (hw : w ∈ ws) (d : PyDict String (PyDict κ V)) :
    PyDict.lookup2 (writeAll d ws) w.1.1 w.1.2 = some w.2 := by
  induction ws generalizing d with
  | nil => simp at hw
  | cons w' rest ih =>
    rw [List.map_cons, List.nodup_cons] at hnd
    rcases List.mem_cons.mp hw with h | h
    · subst h
      have hrest : ∀ x ∈ rest, x.1 ≠ (w.1.1, w.1.2) := by
        intro x hx he
        exact hnd.1 (List.mem_map.mpr ⟨x, hx, he⟩)
      show PyDict.lookup2 (writeAll (PyDict.setNested d w.1.1 w.1.2 w.2) rest) _ _ = _
      rw [lookup2_writeAll_of_not_mem hrest, lookup2_setNested, if_pos ⟨rfl, rfl⟩]
    · exact ih hnd.2 h _

/-- Outer and inner key distinctness of a nested dict, preserved by stores. -/
def NodupDict {κ V : Type} (D : PyDict String (PyDict κ V)) : Prop :=
  (PyDict.keys D).Nodup ∧ ∀ mb ∈ D, (PyDict.keys mb.2).Nodup

theorem nodupDict_setNested {κ V : Type} [DecidableEq κ]
    {D : PyDict String (PyDict κ V)} (h : NodupDict D) (m : String) (k : κ) (v : V) :
    NodupDict (PyDict.setNested D m k v) := by
  refine ⟨PyDict.keys_nodup_set h.1 _ _, fun mb hmb => ?_⟩
  rcases PyDict.mem_set_cases hmb with h' | h'
  · exact h.2 mb h'
  · subst h'
    refine PyDict.keys_nodup_set ?_ _ _
    cases hg : PyDict.get D m with
    | none => simp [hg, PyDict.keys]
    | some b =>
      have := h.2 (m, b) (PyDict.mem_of_get_eq_some hg)
      simpa [hg] using this

theorem nodupDict_writeAll {κ V : Type} [DecidableEq κ]
    {D : PyDict String (PyDict κ V)} (h : NodupDict D)
    (ws : List ((String × κ) × V)) : NodupDict (writeAll D ws) := by
  induction ws generalizing D with
  | nil => exact h
  | cons w rest ih => exact ih (nodupDict_setNested h _ _ _)

theorem nodupDict_nil {κ V : Type} : NodupDict ([] : PyDict String (PyDict κ V)) :=
  ⟨List.nodup_nil, by simp⟩

theorem foldl_flatMap {α β γ : Type} (l : List α) (g : α → List β)
    (f : γ → β → γ) (i : γ) :
    (l.flatMap g).foldl f i = l.foldl (fun a x => (g x).foldl f a) i := by
  induction l generalizing i with
  | nil => rfl
  | cons x xs ih => rw [List.flatMap_cons, List.foldl_append, List.foldl_cons, ih]

theorem foldl_filterMap {α β γ : Type} (l : List α) (g : α → Option β)
    (f : γ → β → γ) (i : γ) :
    (l.filterMap g).foldl f i
      = l.foldl (fun a x => match g x with | some y => f a y | none => a) i := by
  induction l generalizing i with
  | nil => rfl
  | cons x xs ih =>
    rw [List.filterMap_cons]
    cases hg : g x <;> simp only [List.foldl_cons, hg, ih]

theorem foldl_congr_fun {α γ : Type} (l : List α) (f g : γ → α → γ) (i : γ)
    (h : ∀ a x, f a x = g a x) : l.foldl f i = l.foldl g i := by
  have he : f = g := funext fun a => funext fun x => h a x
  rw [he]

/-- The write sequence `cart_serializable` performs over the item list. -/
def serWrites (items : List CartItem) : List ((String × Nat) × SerItem) :=
  items.map (fun it =>
    ((get_product_model_path it.product, it.product.pk), it.to_dict))

theorem cart_serializable_eq_writeAll (c : Cart) :
    Cart.cart_serializable c = writeAll [] (serWrites c.items) := by
  unfold Cart.cart_serializable writeAll serWrites
  rw [List.foldl_map]

theorem serWrites_keys_nodup {items : List CartItem}
    (h : (items.map (fun i => i.product)).Nodup) :
    ((serWrites items).map (fun w => w.1)).Nodup := by
  unfold serWrites
  rw [List.map_map]
  have he : ((fun (w : (String × Nat) × SerItem) => w.1) ∘
      (fun it => ((get_product_model_path it.product, it.product.pk), it.to_dict)))
      = ((fun p : Product => (p.model, p.pk)) ∘ (fun i : CartItem => i.product)) := rfl
  rw [he, ← List.map_map]
  refine List.Nodup.map_on ?_ h
  intro x hx y hy hxy
  cases x
  cases y
  simpa using hxy

/-- Lookup in the serialized cart finds exactly the record of the unique item
with that model path and primary key. -/
theorem lookup2_cart_serializable {c : Cart} (hwf : (c.products).Nodup)
    {m : String} {pk : Nat} {s : SerItem} :
    PyDict.lookup2 (Cart.cart_serializable c) m pk = some s ↔
      ∃ it ∈ c.items, it.product.model = m ∧ it.product.pk = pk ∧ s = it.to_dict := by
  rw [cart_serializable_eq_writeAll]
  constructor
  · intro h
    by_cases hex : ∃ w ∈ serWrites c.items, w.1 = (m, pk)
    · rcases hex with ⟨w, hw, hkey⟩
      rcases List.mem_map.mp hw with ⟨it, hit, hweq⟩
      have hlk := lookup2_writeAll_of_mem (serWrites_keys_nodup hwf) hw
        ([] : PyDict String (PyDict Nat SerItem))
      rw [← hweq] at hkey hlk
      dsimp only at hkey hlk
      simp only [Prod.mk.injEq] at hkey
      obtain ⟨hm', hpk'⟩ := hkey
      rw [hm', hpk', h] at hlk
      injection hlk with hs
      exact ⟨it, hit, hm', hpk', hs⟩
    · push_neg at hex
      rw [lookup2_writeAll_of_not_mem hex] at h
      exact absurd h (by simp [PyDict.lookup2, PyDict.get])
  · rintro ⟨it, hit, hm, hpk, rfl⟩
    have hw : ((get_product_model_path it.product, it.product.pk), it.to_dict)
        ∈ serWrites c.items := List.mem_map.mpr ⟨it, hit, rfl⟩
    have := lookup2_writeAll_of_mem (serWrites_keys_nodup hwf) hw
      ([] : PyDict String (PyDict Nat SerItem))
    simpa [get_product_model_path, hm, hpk] using this

/-- The writes the `__init__` rebuild loop performs for one entry of the
stored representation. -/
def entryWrites (mi : String × PyDict Nat SerItem) (store : List Product)
    (filt : Product → Bool) : List ((String × PKey) × CartItem) :=
  ((store.filter (fun p => p.model == mi.1 && filt p)).filter
      (fun p => (PyDict.keys mi.2).contains p.pk)).filterMap
    (fun p => (PyDict.get mi.2 p.pk).map
      (fun s => ((mi.1, PKey.str p.pk), CartItem.make p s.quantity s.price)))

/-- The write sequence the `__init__` rebuild loop performs for a stored
representation, a product store and a lookup filter. -/
def initWrites (rep : SerializedCart) (store : List Product)
    (filt : Product → Bool) : List ((String × PKey) × CartItem) :=
  rep.flatMap (fun mi => entryWrites mi store filt)

theorem init_itemsDict_eq_writeAll (session : Session) (store : List Product)
    (filt : Product → Bool) {rep : SerializedCart}
    (hdata : session.data = some rep) :
    (Cart.init session store filt).itemsDict
      = writeAll [] (initWrites rep store filt) := by
  unfold Cart.init
  rw [hdata]
  dsimp only
  unfold writeAll initWrites entryWrites
  rw [foldl_flatMap]
  refine foldl_congr_fun _ _ _ _ ?_
  intro d mi
  rw [foldl_filterMap]
  refine foldl_congr_fun _ _ _ _ ?_
  intro a p
  cases hg : PyDict.get mi.2 p.pk <;> rfl

theorem filterMap_option_keys_sublist {α β κ : Type} (l : List α)
    (o : α → Option β) (keyOf : α → κ) :
    (l.filterMap (fun p => (o p).map (fun _ => keyOf p))).Sublist (l.map keyOf) := by
  induction l with
  | nil => simp
  | cons x xs ih =>
    rw [List.filterMap_cons, List.map_cons]
    cases hx : o x with
    | none =>
      show (xs.filterMap fun p => (o p).map
          (fun _ => keyOf p)).Sublist (keyOf x :: xs.map keyOf)
      exact ih.trans (List.sublist_cons_self _ _)
    | some v =>
      show (keyOf x :: (xs.filterMap fun p => (o p).map
          (fun _ => keyOf p))).Sublist (keyOf x :: xs.map keyOf)
      exact List.Sublist.cons₂ _ ih

theorem entryWrites_keys_nodup {store : List Product} (hstore : store.Nodup)
    (mi : String × PyDict Nat SerItem) (filt : Product → Bool) :
    ((entryWrites mi store filt).map (fun w => w.1)).Nodup := by
  unfold entryWrites
  rw [List.map_filterMap]
  have hkeys : (fun p => ((PyDict.get mi.2 p.pk).map
        (fun s => ((mi.1, PKey.str p.pk), CartItem.make p s.quantity s.price))).map
          (fun w => w.1))
      = (fun p : Product => (PyDict.get mi.2 p.pk).map
          (fun _ => (mi.1, PKey.str p.pk))) := by
    funext p
    cases PyDict.get mi.2 p.pk <;> rfl
  rw [hkeys]
  refine (filterMap_option_keys_sublist _ _ _).nodup ?_
  refine List.Nodup.map_on ?_ (List.Nodup.filter _ (List.Nodup.filter _ hstore))
  intro x hx y hy hxy
  have hxm : x.model = mi.1 := by
    have hc := (List.mem_filter.mp (List.mem_filter.mp hx).1).2
    simp only [Bool.and_eq_true, beq_iff_eq] at hc
    exact hc.1
  have hym : y.model = mi.1 := by
    have hc := (List.mem_filter.mp (List.mem_filter.mp hy).1).2
    simp only [Bool.and_eq_true, beq_iff_eq] at hc
    exact hc.1
  have hpk : x.pk = y.pk := by
    have := congrArg Prod.snd hxy
    simpa using this
  ext
  · rw [hxm, hym]
  · exact hpk

theorem entryWrites_key_fst {mi : String × PyDict Nat SerItem}
    {store : List Product} {filt : Product → Bool}
    {w : (String × PKey) × CartItem} (hw : w ∈ entryWrites mi store filt) :
    w.1.1 = mi.1 := by
  unfold entryWrites at hw
  rcases List.mem_filterMap.mp hw with ⟨p, hp, hpw⟩
  rcases Option.map_eq_some'.mp hpw with ⟨s, hs, rfl⟩
  rfl

theorem initWrites_key_fst_mem {rep : SerializedCart} {store : List Product}
    {filt : Product → Bool} {w : (String × PKey) × CartItem}
    (hw : w ∈ initWrites rep store filt) : w.1.1 ∈ PyDict.keys rep := by
  unfold initWrites at hw
  rcases List.mem_flatMap.mp hw with ⟨mi, hmi, hwmi⟩
  rw [entryWrites_key_fst hwmi]
  exact PyDict.key_mem_keys hmi

theorem initWrites_keys_nodup {rep : SerializedCart}
    (hrep : (PyDict.keys rep).Nodup) {store : List Product}
    (hstore : store.Nodup) (filt : Product → Bool) :
    ((initWrites rep store filt).map (fun w => w.1)).Nodup := by
  induction rep with
  | nil => simp [initWrites]
  | cons mi rest ih =>
    rw [PyDict.keys_cons, List.nodup_cons] at hrep
    have hcons : initWrites (mi :: rest) store filt
        = entryWrites mi store filt ++ initWrites rest store filt := by
      unfold initWrites
      rw [List.flatMap_cons]
    rw [hcons, List.map_append, List.nodup_append]
    refine ⟨entryWrites_keys_nodup hstore mi filt, ih hrep.2, ?_⟩
    intro a ha₁ ha₂
    rcases List.mem_map.mp ha₁ with ⟨w, hw, rfl⟩
    rcases List.mem_map.mp ha₂ with ⟨w', hw', hww⟩
    have h1 : w.1.1 = mi.1 := entryWrites_key_fst hw
    have h2 : w'.1.1 ∈ PyDict.keys rest := initWrites_key_fst_mem hw'
    have h3 : mi.1 ∈ PyDict.keys rest := by
      rw [← h1, ← congrArg Prod.fst hww]
      exact h2
    exact hrep.1 h3

theorem mem_entryWrites {mi : String × PyDict Nat SerItem} {store : List Product}
    {filt : Product → Bool} {w : (String × PKey) × CartItem} :
    w ∈ entryWrites mi store filt ↔
      ∃ p ∈ store, p.model = mi.1 ∧ filt p = true ∧
        ∃ s, PyDict.get mi.2 p.pk = some s ∧
          w = ((mi.1, PKey.str p.pk), CartItem.make p s.quantity s.price) := by
  unfold entryWrites
  constructor
  · intro hw
    rcases List.mem_filterMap.mp hw with ⟨p, hp, hpw⟩
    rcases Option.map_eq_some'.mp hpw with ⟨s, hs, rfl⟩
    rcases List.mem_filter.mp hp with ⟨hp1, _⟩
    rcases List.mem_filter.mp hp1 with ⟨hp0, hcond⟩
    simp only [Bool.and_eq_true, beq_iff_eq] at hcond
    exact ⟨p, hp0, hcond.1, hcond.2, s, hs, rfl⟩
  · rintro ⟨p, hp, hpm, hpf, s, hs, rfl⟩
    refine List.mem_filterMap.mpr ⟨p, ?_, ?_⟩
    · refine List.mem_filter.mpr ⟨List.mem_filter.mpr ⟨hp, ?_⟩, ?_⟩
      · simp [hpm, hpf]
      · have hmem : p.pk ∈ PyDict.keys mi.2 := PyDict.keys_mem_iff.mpr ⟨s, hs⟩
        exact List.elem_iff.mpr hmem
    · rw [hs]
      rfl

theorem mem_dictItems_iff_lookup2 {D : PyDict String (PyDict PKey CartItem)}
    (h : NodupDict D) {x : CartItem} :
    x ∈ dictItems D ↔ ∃ m k, PyDict.lookup2 D m k = some x := by
  constructor
  · intro hx
    unfold dictItems at hx
    rcases List.mem_flatMap.mp hx with ⟨b, hbv, hxb⟩
    rcases List.mem_map.mp hbv with ⟨mb, hmb, rfl⟩
    rcases List.mem_map.mp hxb with ⟨kv, hkv, rfl⟩
    refine ⟨mb.1, kv.1, ?_⟩
    unfold PyDict.lookup2
    rw [show PyDict.get D mb.1 = some mb.2 from
      PyDict.get_eq_some_of_mem h.1 hmb]
    rw [Option.some_bind]
    exact PyDict.get_eq_some_of_mem (h.2 mb hmb) hkv
  · rintro ⟨m, k, hmk⟩
    unfold PyDict.lookup2 at hmk
    cases hG : PyDict.get D m with
    | none =>
      rw [hG] at hmk
      exact absurd hmk (by simp)
    | some b =>
      rw [hG, Option.some_bind] at hmk
      have hmbD := PyDict.mem_of_get_eq_some hG
      have hkvb := PyDict.mem_of_get_eq_some hmk
      unfold dictItems
      refine List.mem_flatMap.mpr ⟨b, ?_, ?_⟩
      · exact List.mem_map.mpr ⟨(m, b), hmbD, rfl⟩
      · exact List.mem_map.mpr ⟨(k, x), hkvb, rfl⟩

/-- Claim C1: storing a cart's serialized representation in the session and
constructing a new `Cart` from that session yields exactly the items of the
original cart whose product is still in the backing store and passes the
configured lookup filter (same product, same quantity, same price); every
product removed from the store is absent from the reconstructed cart, and the
construction raises no error (it is a total function of the model).  The
hypotheses say the original cart has no duplicate products (true of every
cart the class builds, claim C8) and the store holds distinct product
records (primary keys are unique per model). -/
theorem C1_round_trip (c : Cart) (store : List Product) (filt : Product → Bool)
    (hwf : (c.products).Nodup) (hstore : store.Nodup) :
    (∀ x : CartItem,
        x ∈ (Cart.init (Cart.update_session c).session store filt).items ↔
          x ∈ c.items ∧ x.product ∈ store ∧ filt x.product = true) ∧
    (∀ p : Product, p ∉ store →
        p ∉ (Cart.init (Cart.update_session c).session store filt).products) := by
  have hdata : (Cart.update_session c).session.data
      = some (Cart.cart_serializable c) := rfl
  have hrepnd : NodupDict (Cart.cart_serializable c) := by
    rw [cart_serializable_eq_writeAll]
    exact nodupDict_writeAll nodupDict_nil _
  have hinit : (Cart.init (Cart.update_session c).session store filt).itemsDict
      = writeAll [] (initWrites (Cart.cart_serializable c) store filt) :=
    init_itemsDict_eq_writeAll _ _ _ hdata
  have hND : NodupDict (writeAll ([] : PyDict String (PyDict PKey CartItem))
      (initWrites (Cart.cart_serializable c) store filt)) :=
    nodupDict_writeAll nodupDict_nil _
  have hwkeys : ((initWrites (Cart.cart_serializable c) store filt).map
      (fun w => w.1)).Nodup :=
    initWrites_keys_nodup hrepnd.1 hstore filt
  have hmain : ∀ x : CartItem,
      x ∈ (Cart.init (Cart.update_session c).session store filt).items ↔
        x ∈ c.items ∧ x.product ∈ store ∧ filt x.product = true := by
    intro x
    have hitems : (Cart.init (Cart.update_session c).session store filt).items
        = dictItems (writeAll []
            (initWrites (Cart.cart_serializable c) store filt)) := by
      unfold Cart.items
      rw [hinit]
    rw [hitems, mem_dictItems_iff_lookup2 hND]
    constructor
    · rintro ⟨m, k, hmk⟩
      by_cases hex : ∃ w ∈ initWrites (Cart.cart_serializable c) store filt,
          w.1 = (m, k)
      · rcases hex with ⟨w, hw, hkey⟩
        have hlk := lookup2_writeAll_of_mem hwkeys hw
          ([] : PyDict String (PyDict PKey CartItem))
        have h11 : w.1.1 = m := by rw [hkey]
        have h12 : w.1.2 = k := by rw [hkey]
        rw [h11, h12, hmk] at hlk
        injection hlk with hx
        unfold initWrites at hw
        rcases List.mem_flatMap.mp hw with ⟨mi, hmi, hwmi⟩
        rcases mem_entryWrites.mp hwmi with ⟨p, hpstore, hpm, hpf, s, hs, rfl⟩
        have hser : PyDict.lookup2 (Cart.cart_serializable c) mi.1 p.pk
            = some s := by
          unfold PyDict.lookup2
          rw [show PyDict.get (Cart.cart_serializable c) mi.1 = some mi.2 from
            PyDict.get_eq_some_of_mem hrepnd.1 hmi]
          rw [Option.some_bind]
          exact hs
        rcases (lookup2_cart_serializable hwf).mp hser with
          ⟨it, hit, him, hipk, hsit⟩
        have hprod : it.product = p := by
          ext
          · rw [him, hpm]
          · exact hipk
        have hxit : x = it := by
          rw [hx]
          dsimp only
          rw [hsit, ← hprod]
          rfl
        refine ⟨?_, ?_, ?_⟩
        · rw [hxit]
          exact hit
        · rw [hxit, hprod]
          exact hpstore
        · rw [hxit, hprod]
          exact hpf
      · push_neg at hex
        rw [lookup2_writeAll_of_not_mem hex] at hmk
        exact absurd hmk (by simp [PyDict.lookup2, PyDict.get])
    · rintro ⟨hx, hxs, hxf⟩
      have hser : PyDict.lookup2 (Cart.cart_serializable c) x.product.model
          x.product.pk = some x.to_dict :=
        (lookup2_cart_serializable hwf).mpr ⟨x, hx, rfl, rfl, rfl⟩
      unfold PyDict.lookup2 at hser
      cases hG : PyDict.get (Cart.cart_serializable c) x.product.model with
      | none =>
        rw [hG] at hser
        exact absurd hser (by simp)
      | some b =>
        rw [hG, Option.some_bind] at hser
        have hmi : (x.product.model, b) ∈ Cart.cart_serializable c :=
          PyDict.mem_of_get_eq_some hG
        have hwent : ((x.product.model, PKey.str x.product.pk),
            CartItem.make x.product x.to_dict.quantity x.to_dict.price)
            ∈ entryWrites (x.product.model, b) store filt := by
          refine mem_entryWrites.mpr
            ⟨x.product, hxs, rfl, hxf, x.to_dict, hser, rfl⟩
        have hw : ((x.product.model, PKey.str x.product.pk),
            CartItem.make x.product x.to_dict.quantity x.to_dict.price)
            ∈ initWrites (Cart.cart_serializable c) store filt := by
          unfold initWrites
          exact List.mem_flatMap.mpr ⟨(x.product.model, b), hmi, hwent⟩
        refine ⟨x.product.model, PKey.str x.product.pk, ?_⟩
        exact lookup2_writeAll_of_mem hwkeys hw
          ([] : PyDict String (PyDict PKey CartItem))
  refine ⟨hmain, ?_⟩
  intro p hp hmem
  rcases List.mem_map.mp hmem with ⟨x, hx, hxp⟩
  exact hp (hxp ▸ ((hmain x).mp hx).2.1)

/-- Witness for C1: a two-item cart serialized and rebuilt against a store
that retains only one of the products. -/
theorem C1_witness :
    (∀ x : CartItem,
        x ∈ (Cart.init (Cart.update_session cartAB).session [prodA] (fun _ => true)).items ↔
          x ∈ cartAB.items ∧ x.product ∈ [prodA] ∧ (fun _ : Product => true) x.product = true) ∧
    (∀ p : Product, p ∉ [prodA] →
        p ∉ (Cart.init (Cart.update_session cartAB).session [prodA] (fun _ => true)).products) :=
  C1_round_trip cartAB [prodA] (fun _ => true) (by decide) (by decide)

end Carton
